import Mathlib

/-!
Verification of the authenticated-envelope encryption subsystem
(`CryptoEngine` / `CryptoService`) of the repository.

Strings are modelled as Lean `String` (sequences of characters; all strings
appearing in the envelope pipeline are ASCII, where JavaScript UTF-16 code
units and code points coincide).  Byte strings are modelled as `List Nat`.
JavaScript errors thrown through `ErrorHandler.logAndThrow(source, message)`
are modelled as values of `CryptoError`; `ErrorHandler.captureError` only
logs and rethrows, so it is invisible in the model.
-/

namespace CryptoSpec

/-- An error thrown via `ErrorHandler.logAndThrow(source, message)`:
the `source` tag and the human-readable message. -/
structure CryptoError where
  source : String
  message : String
deriving DecidableEq, Repr

/-- The four fields of a parsed envelope, as returned by
`CryptoEngine.parseEncryptedData`. -/
structure ParsedPayload where
  salt : String
  iv : String
  cipherText : String
  receivedHmac : String
deriving DecidableEq, Repr

/-- Observable operations of the pipeline, used to reason about the order in
which the service performs work (instrumentation of the shallow embedding). -/
inductive CryptoEvent where
  | resolveSecretKey
  | parseEnvelope
  | deriveKeys
  | aeadEncrypt
  | computeMac
  | verifyMac
  | aeadDecrypt
deriving DecidableEq, Repr

/-- `CRYPTO_CONSTANTS.FORMAT.PREFIX`, the fixed envelope header `"ENC2:"`. -/
def envHeader : String := "ENC2:"

/-- `CRYPTO_CONSTANTS.FORMAT.EXPECTED_PARTS`. -/
def EXPECTED_PARTS : Nat := 4

/-- `CRYPTO_CONFIG.BYTE_LENGTHS.SECRET_KEY` (bytes of the AES key). -/
def SECRET_KEY_BYTES : Nat := 32

/-- `CRYPTO_CONFIG.BYTE_LENGTHS.HMAC_KEY_LENGTH` (bytes of the MAC key). -/
def HMAC_KEY_BYTES : Nat := 32

/-- JavaScript `value.substring(n)`: drop the first `n` code units. -/
def jsSubstringFrom (n : Nat) (s : String) : String :=
  String.mk (s.data.drop n)

/-- JavaScript `value.startsWith(pre)`. -/
def jsStartsWith (pre s : String) : Bool :=
  pre.data.isPrefixOf s.data

/-- JavaScript `String.prototype.split` with a single-character separator:
splits on every occurrence, keeping empty segments (`"".split(sep) = [""]`). -/
def splitOnChar (sep : Char) : List Char → List (List Char)
  | [] => [[]]
  | c :: rest =>
    match splitOnChar sep rest with
    | [] => [[]]
    | h :: t => if c = sep then [] :: h :: t else (c :: h) :: t

/-- JavaScript `value.split(":")` (the `SEPARATOR` constant). -/
def jsSplitColon (s : String) : List String :=
  (splitOnChar ':' s.data).map String.mk

/-- A character of the base64 alphabet proper, `[A-Za-z0-9+/]`. -/
def isBase64Char (c : Char) : Bool :=
  c.isAlpha || c.isDigit || c = '+' || c = '/'

/-- The test of the regular expression `^[A-Za-z0-9+/]*={0,2}$`:
at most two trailing `=` and every other character in the base64 alphabet. -/
def base64BodyOk (s : String) : Bool :=
  let rev := s.data.reverse
  decide ((rev.takeWhile (fun c => c = '=')).length ≤ 2) &&
    (rev.dropWhile (fun c => c = '=')).all isBase64Char

/-- `CryptoEngine.isValidBase64`: non-empty, matches the base64 regular
expression, and has length a multiple of 4.  (`Buffer.from(value, "base64")`
never throws, so the final `try` block always returns `true`.) -/
def isValidBase64 (value : String) : Bool :=
  if value = "" then false
  else if !(base64BodyOk value) then false
  else if value.data.length % 4 != 0 then false
  else true

/-- `CryptoEngine.isEncrypted`: the cheap well-formedness predicate on
envelope strings. -/
def isEncrypted (value : String) : Bool :=
  if value = "" then false
  else if !(jsStartsWith envHeader value) then false
  else
    let encryptedPart := jsSubstringFrom envHeader.data.length value
    let parts := jsSplitColon encryptedPart
    decide (parts.length = EXPECTED_PARTS) &&
      parts.all (fun part => !(part = "") && isValidBase64 part)

/-- `CryptoEngine.validateBase64String(value, fieldName)`. -/
def validateBase64String (value fieldName : String) : Except CryptoError Unit :=
  if value = "" then
    .error ⟨"CryptoEngine.validateBase64String",
      fieldName ++ " must be a non-empty string"⟩
  else if !(isValidBase64 value) then
    .error ⟨"CryptoEngine.validateBase64String",
      fieldName ++ " is not a valid base64 string"⟩
  else
    .ok ()

/-- `CryptoEngine.validateSecretKey`. -/
def validateSecretKey (secretKey : String) : Except CryptoError Unit :=
  if secretKey = "" then
    .error ⟨"CryptoEngine.validateSecretKey", "Secret key must be a non-empty string"⟩
  else if secretKey.data.length < 16 then
    .error ⟨"CryptoEngine.validateSecretKey", "Secret key must be at least 16 characters long"⟩
  else
    .ok ()

/-- `CryptoEngine.validateInputs(value, secretKey, operation)`.  (The second
branch's source tag is `"CryptoEngine.validateSecretKey"` in the source.) -/
def validateInputs (value secretKey operation : String) : Except CryptoError Unit :=
  if value = "" then
    .error ⟨"CryptoEngine.validateInputs", operation ++ ": Value must be a non-empty string"⟩
  else if secretKey = "" then
    .error ⟨"CryptoEngine.validateSecretKey", operation ++ ": Secret key must be a non-empty string"⟩
  else
    .ok ()

/-- `CryptoEngine.validateEncryptedComponents`: the consolidated format check
run by `parseEncryptedData`.  JavaScript array destructuring yields
`undefined` for absent parts; every use here (truthiness, `isValidBase64`)
treats `undefined` exactly like `""`, so absent parts are modelled as `""`. -/
def validateEncryptedComponents (encryptedData : String) (parts : List String)
    (salt iv cipherText receivedHmac : String) : Except CryptoError Unit :=
  if !(jsStartsWith envHeader encryptedData) then
    .error ⟨"CryptoEngine.validateEncryptedComponents",
      "Invalid encrypted format: Missing prefix"⟩
  else if parts.length != EXPECTED_PARTS then
    .error ⟨"CryptoEngine.validateEncryptedComponents",
      "Invalid format. Expected " ++ toString EXPECTED_PARTS ++ " parts, got "
        ++ toString parts.length⟩
  else
    let missingParts : List String :=
      (if salt = "" then ["salt"] else []) ++
      (if iv = "" then ["iv"] else []) ++
      (if cipherText = "" then ["cipherText"] else []) ++
      (if receivedHmac = "" then ["hmac"] else [])
    if missingParts.length > 0 then
      .error ⟨"CryptoEngine.validateEncryptedComponents",
        "Authentication failed: Missing components - "
          ++ String.intercalate ", " missingParts⟩
    else
      let invalidComponents : List String :=
        (if !(isValidBase64 salt) then ["salt"] else []) ++
        (if !(isValidBase64 iv) then ["iv"] else []) ++
        (if !(isValidBase64 cipherText) then ["cipherText"] else []) ++
        (if !(isValidBase64 receivedHmac) then ["hmac"] else [])
      if invalidComponents.length > 0 then
        .error ⟨"CryptoEngine.validateEncryptedComponents",
          "Invalid format for components: "
            ++ String.intercalate ", " invalidComponents⟩
      else
        .ok ()

/-- `CryptoEngine.parseEncryptedData`. -/
def parseEncryptedData (encryptedData : String) : Except CryptoError ParsedPayload :=
  let encryptedPart := jsSubstringFrom envHeader.data.length encryptedData
  let parts := jsSplitColon encryptedPart
  let salt := parts.getD 0 ""
  let iv := parts.getD 1 ""
  let cipherText := parts.getD 2 ""
  let receivedHmac := parts.getD 3 ""
  (validateEncryptedComponents encryptedData parts salt iv cipherText receivedHmac).map
    (fun _ => ⟨salt, iv, cipherText, receivedHmac⟩)

/-- `CryptoEngine.formatEncryptedPayload`. -/
def formatEncryptedPayload (salt iv cipherText hmacBase64 : String) : String :=
  envHeader ++ salt ++ ":" ++ iv ++ ":" ++ cipherText ++ ":" ++ hmacBase64

/-- Modelled from the spec: the operations the engine delegates to code that
is not under `src/` — the `argon2` library (`argon2.hash` with `raw: true`),
the WebCrypto primitives (`subtle.sign "HMAC"`, `subtle.encrypt`/`decrypt`
with AES-GCM), Node's `Buffer` base64 codec and `TextEncoder`/`TextDecoder`,
and the secret-file store behind `SecretFileManager.getKeyValue`.  Each is an
abstract deterministic operation; the contracts the spec attributes to them
(AEAD round-trip, base64 round-trip, …) appear as hypotheses of the theorems
that need them.  `aesGcmDecrypt` returns `none` when the embedded AEAD tag
does not verify; `argon2Hash` returns `none` when hashing fails. -/
structure Externals where
  resolveSecret : String → Option String
  argon2Hash : String → List Nat → Option (List Nat)
  hmacSha256 : List Nat → List Nat → List Nat
  aesGcmEncrypt : List Nat → List Nat → List Nat → List Nat
  aesGcmDecrypt : List Nat → List Nat → List Nat → Option (List Nat)
  b64encode : List Nat → String
  b64decode : String → List Nat
  utf8Encode : String → List Nat
  utf8Decode : List Nat → String

/-- The derived key pair of `CryptoEngine.deriveKeysWithArgon2` (the imported
`CryptoKey` objects carry exactly the raw bytes they were imported from). -/
structure DerivedKeys where
  encryptionKey : List Nat
  hmacKey : List Nat
deriving DecidableEq, Repr

/-- `CryptoEngine.getSecretKeyFromEnvironment`: resolve the stored passphrase;
a missing variable and an empty stored value are both falsy and rejected. -/
def getSecretKeyFromEnvironment (ext : Externals) (secretKeyVariable : String) :
    Except CryptoError String :=
  match ext.resolveSecret secretKeyVariable with
  | none =>
    .error ⟨"CryptoEngine.getSecretKeyFromEnvironment",
      "Secret key variable '" ++ secretKeyVariable ++ "' not found in environment file"⟩
  | some v =>
    if v = "" then
      .error ⟨"CryptoEngine.getSecretKeyFromEnvironment",
        "Secret key variable '" ++ secretKeyVariable ++ "' not found in environment file"⟩
    else
      .ok v

/-- `CryptoEngine.deriveKeysWithArgon2`: validate the salt as base64, hash
with Argon2id (`hashLength` 64), split the output 32/32 and import the two
halves.  There is no check on the decoded length of the salt. -/
def deriveKeysWithArgon2 (ext : Externals) (secretKey salt : String) :
    Except CryptoError DerivedKeys :=
  match validateBase64String salt "salt" with
  | .error e => .error e
  | .ok _ =>
    match ext.argon2Hash secretKey (ext.b64decode salt) with
    | none => .error ⟨"argon2Hashing", "Failed to derive key using Argon2 hashing."⟩
    | some derivedKeyBuffer =>
      .ok ⟨derivedKeyBuffer.take SECRET_KEY_BYTES, derivedKeyBuffer.drop SECRET_KEY_BYTES⟩

/-- `CryptoEngine.computeHMAC`: sign with HMAC-SHA-256 and base64-encode. -/
def computeHMAC (ext : Externals) (key data : List Nat) : String :=
  ext.b64encode (ext.hmacSha256 key data)

/-- `CryptoEngine.prepareHMACData`: decode the three base64 components and
concatenate `salt ‖ iv ‖ cipherText`. -/
def prepareHMACData (ext : Externals) (salt iv cipherText : String) : List Nat :=
  ext.b64decode salt ++ ext.b64decode iv ++ ext.b64decode cipherText

/-- `CryptoEngine.constantTimeCompare`'s loop: OR-accumulate the XOR of the
code units, also counting the number of iterations executed. -/
def ctLoop : List Char → List Char → Nat × Nat
  | x :: xs, y :: ys =>
    let r := ctLoop xs ys
    (r.1 ||| (x.toNat ^^^ y.toNat), r.2 + 1)
  | _, _ => (0, 0)

/-- `CryptoEngine.constantTimeCompare`. -/
def constantTimeCompare (firstValue secondValue : String) : Bool :=
  if firstValue.data.length != secondValue.data.length then false
  else (ctLoop firstValue.data secondValue.data).1 == 0

/-- The number of loop iterations `constantTimeCompare` executes. -/
def constantTimeCompareSteps (firstValue secondValue : String) : Nat :=
  if firstValue.data.length != secondValue.data.length then 0
  else (ctLoop firstValue.data secondValue.data).2

/-- `CryptoEngine.verifyHMAC`: recompute the tag over
`salt ‖ iv ‖ cipherText` and compare with the received tag in constant time. -/
def verifyHMAC (ext : Externals) (salt iv cipherText receivedHmac : String)
    (hmacKey : List Nat) : Except CryptoError Unit :=
  let dataToHmac := prepareHMACData ext salt iv cipherText
  let computedHmac := computeHMAC ext hmacKey dataToHmac
  if !(constantTimeCompare computedHmac receivedHmac) then
    .error ⟨"CryptoEngine.verifyHMAC",
      "Authentication failed: HMAC mismatch - Invalid key or tampered data"⟩
  else
    .ok ()

/-- `CryptoEngine.performDecryption`: base64-decode iv and ciphertext and
AEAD-decrypt; a tag failure surfaces as the `decryptBuffer` error. -/
def performDecryption (ext : Externals) (iv : String) (encryptionKey : List Nat)
    (cipherText : String) : Except CryptoError (List Nat) :=
  match ext.aesGcmDecrypt encryptionKey (ext.b64decode iv) (ext.b64decode cipherText) with
  | none => .error ⟨"decryptBuffer", "Failed to decrypt with AES-GCM"⟩
  | some buf => .ok buf

/-- `CryptoEngine.createEncryptedPayload`: AEAD-encrypt, base64-encode the
components, MAC `salt ‖ iv ‖ cipherText`, and serialize the envelope. -/
def createEncryptedPayload (ext : Externals) (value salt : String) (iv : List Nat)
    (keys : DerivedKeys) : String :=
  let cipherText := ext.b64encode (ext.aesGcmEncrypt keys.encryptionKey iv (ext.utf8Encode value))
  let ivBase64 := ext.b64encode iv
  let dataToHmac := prepareHMACData ext salt ivBase64 cipherText
  let hmacBase64 := computeHMAC ext keys.hmacKey dataToHmac
  formatEncryptedPayload salt ivBase64 cipherText hmacBase64

/-- `CryptoService.encrypt`.  `SecureKeyGenerator` is not under `src/`;
modelled from the spec, the fresh random draws (32 salt bytes, 12 IV bytes)
are explicit inputs `saltBytes`/`ivBytes`, and `generateBase64Salt` returns
their base64 encoding.  The second component records which operations ran. -/
def encrypt (ext : Externals) (saltBytes ivBytes : List Nat)
    (value secretKeyVariable : String) :
    Except CryptoError String × List CryptoEvent :=
  match getSecretKeyFromEnvironment ext secretKeyVariable with
  | .error e => (.error e, [.resolveSecretKey])
  | .ok secretKey =>
    match validateSecretKey secretKey with
    | .error e => (.error e, [.resolveSecretKey])
    | .ok _ =>
      match validateInputs value secretKey "encrypt" with
      | .error e => (.error e, [.resolveSecretKey])
      | .ok _ =>
        let salt := ext.b64encode saltBytes
        match deriveKeysWithArgon2 ext secretKey salt with
        | .error e => (.error e, [.resolveSecretKey, .deriveKeys])
        | .ok keys =>
          (.ok (createEncryptedPayload ext value salt ivBytes keys),
            [.resolveSecretKey, .deriveKeys, .aeadEncrypt, .computeMac])

/-- `CryptoService.decrypt`.  The second component records which operations
ran, in order. -/
def decrypt (ext : Externals) (encryptedData secretKeyVariable : String) :
    Except CryptoError String × List CryptoEvent :=
  match getSecretKeyFromEnvironment ext secretKeyVariable with
  | .error e => (.error e, [.resolveSecretKey])
  | .ok resolvedSecretKey =>
    match validateSecretKey resolvedSecretKey with
    | .error e => (.error e, [.resolveSecretKey])
    | .ok _ =>
      match validateInputs encryptedData resolvedSecretKey "decrypt" with
      | .error e => (.error e, [.resolveSecretKey])
      | .ok _ =>
        match parseEncryptedData encryptedData with
        | .error e => (.error e, [.resolveSecretKey, .parseEnvelope])
        | .ok p =>
          match deriveKeysWithArgon2 ext resolvedSecretKey p.salt with
          | .error e => (.error e, [.resolveSecretKey, .parseEnvelope, .deriveKeys])
          | .ok keys =>
            match verifyHMAC ext p.salt p.iv p.cipherText p.receivedHmac keys.hmacKey with
            | .error e =>
              (.error e, [.resolveSecretKey, .parseEnvelope, .deriveKeys, .verifyMac])
            | .ok _ =>
              match performDecryption ext p.iv keys.encryptionKey p.cipherText with
              | .error e =>
                (.error e,
                  [.resolveSecretKey, .parseEnvelope, .deriveKeys, .verifyMac, .aeadDecrypt])
              | .ok buf =>
                (.ok (ext.utf8Decode buf),
                  [.resolveSecretKey, .parseEnvelope, .deriveKeys, .verifyMac, .aeadDecrypt])

instance {ε α : Type} [DecidableEq ε] [DecidableEq α] : DecidableEq (Except ε α)
  | .ok a, .ok b =>
    if h : a = b then .isTrue (by rw [h]) else .isFalse (fun hc => by cases hc; exact h rfl)
  | .ok _, .error _ => .isFalse (fun hc => by cases hc)
  | .error _, .ok _ => .isFalse (fun hc => by cases hc)
  | .error e, .error f =>
    if h : e = f then .isTrue (by rw [h]) else .isFalse (fun hc => by cases hc; exact h rfl)

/-- `Except.isOk` as a plain definition (avoids relying on library helpers). -/
def isOkE {ε α : Type} (e : Except ε α) : Bool :=
  match e with
  | .ok _ => true
  | .error _ => false

/-- `CryptoService.encryptMultiple` over a list of items, each carrying its
own fresh random draws `(value, (saltBytes, ivBytes))`; `Promise.all` starts
every item and resolves with the results in input order, rejecting (with the
first failing item's error, in input order in this sequential model) if any
item fails.  Traces of all items are concatenated. -/
def encryptList (ext : Externals) (secretKeyVariable : String) :
    List (String × List Nat × List Nat) →
    Except CryptoError (List String) × List CryptoEvent
  | [] => (.ok [], [])
  | it :: rest =>
    let r := encrypt ext it.2.1 it.2.2 it.1 secretKeyVariable
    let rs := encryptList ext secretKeyVariable rest
    (match r.1, rs.1 with
     | .error e, _ => .error e
     | .ok _, .error e => .error e
     | .ok v, .ok vs => .ok (v :: vs), r.2 ++ rs.2)

/-- `CryptoService.decryptMultiple`'s `Promise.all(map(decrypt))` over a
(non-empty) list. -/
def decryptList (ext : Externals) (secretKeyVariable : String) :
    List String → Except CryptoError (List String) × List CryptoEvent
  | [] => (.ok [], [])
  | v :: rest =>
    let r := decrypt ext v secretKeyVariable
    let rs := decryptList ext secretKeyVariable rest
    (match r.1, rs.1 with
     | .error e, _ => .error e
     | .ok _, .error e => .error e
     | .ok pt, .ok pts => .ok (pt :: pts), r.2 ++ rs.2)

/-- A runtime JavaScript argument for `decryptMultiple`: the TypeScript type
says `string[]`, but the code guards against non-array values with
`Array.isArray`, so the model distinguishes the two shapes. -/
inductive JsArg where
  | arr (values : List String)
  | notArray
deriving DecidableEq, Repr

/-- `CryptoService.decryptMultiple`: reject non-arrays, short-circuit the
empty array before any per-item work, otherwise decrypt all in parallel. -/
def decryptMultiple (ext : Externals) (encryptedValues : JsArg)
    (secretKeyVariable : String) :
    Except CryptoError (List String) × List CryptoEvent :=
  match encryptedValues with
  | .notArray => (.error ⟨"decryptMultiple", "encryptedValues must be an array"⟩, [])
  | .arr vs =>
    if vs = [] then (.ok [], [])
    else decryptList ext secretKeyVariable vs

/-! ### Concrete executable instantiations of the external operations

Used to evaluate the pipeline on concrete inputs.  `toyB64encode` maps each
byte to two characters of the base64 alphabet (`'A' + hi`, `'A' + lo` for the
two hex digits) and pads with `"=="` when the byte count is odd, so its
output is always accepted by `isValidBase64`; `toyB64decodePairs` inverts it. -/

def toyB64encode (bs : List Nat) : String :=
  let chars := bs.foldr
    (fun b acc => Char.ofNat (65 + b / 16 % 16) :: Char.ofNat (65 + b % 16) :: acc) []
  if bs.length % 2 = 0 then String.mk chars else String.mk (chars ++ ['=', '='])

def toyB64decodePairs : List Char → List Nat
  | a :: b :: rest => ((a.toNat - 65) * 16 + (b.toNat - 65)) :: toyB64decodePairs rest
  | _ => []

def toyB64decode (s : String) : List Nat :=
  toyB64decodePairs (s.data.filter (fun c => !(c = '=')))

/-- Concrete externals: a fixed stored passphrase, a fixed 64-byte Argon2
output, a fixed 4-byte MAC, an AEAD that appends a one-byte tag, and the
concrete codecs above. -/
def toyExt : Externals where
  resolveSecret := fun _ => some "0123456789abcdef"
  argon2Hash := fun _ _ => some (List.range 64)
  hmacSha256 := fun _ _ => [1, 2, 3, 4]
  aesGcmEncrypt := fun _ _ ptBytes => ptBytes ++ [0]
  aesGcmDecrypt := fun _ _ ctBytes => some ctBytes.dropLast
  b64encode := toyB64encode
  b64decode := toyB64decode
  utf8Encode := fun s => s.data.map Char.toNat
  utf8Decode := fun bs => String.mk (bs.map Char.ofNat)

/-- The salt/IV random draws used by the concrete evaluations. -/
def toySaltBytes : List Nat := List.replicate 32 7

def toyIvBytes : List Nat := List.replicate 12 3

/-- A concrete well-formed envelope, produced by the pipeline itself. -/
def toyEnvelope : String :=
  match (encrypt toyExt toySaltBytes toyIvBytes "ab" "MY_SECRET_KEY").1 with
  | .ok s => s
  | .error _ => ""

/-- Concrete externals whose secret store holds a too-short passphrase. -/
def toyExtShort : Externals :=
  { toyExt with resolveSecret := fun _ => some "shortkey" }

/-- Concrete externals whose secret store holds the empty string. -/
def toyExtEmptySecret : Externals :=
  { toyExt with resolveSecret := fun _ => some "" }

/-- The test of the claim's regular expression
`^ENC2:[A-Za-z0-9+/=]+:[A-Za-z0-9+/=]+:[A-Za-z0-9+/=]+:[A-Za-z0-9+/=]+$`:
since `:` is not in the character class, a string matches exactly when it
starts with the header and the remainder splits on `:` into exactly 4
non-empty parts whose characters all lie in `[A-Za-z0-9+/=]`. -/
def matchesClaimRegex (s : String) : Bool :=
  jsStartsWith envHeader s &&
  (let parts := jsSplitColon (jsSubstringFrom envHeader.data.length s)
   decide (parts.length = 4) &&
     parts.all (fun p => !(p = "") && p.data.all (fun c => isBase64Char c || c = '=')))

/-- Concrete batch input: two plaintexts with their fresh random draws. -/
def toyItems : List (String × List Nat × List Nat) :=
  [("ab", (toySaltBytes, toyIvBytes)), ("cd", (toySaltBytes, toyIvBytes))]

/-- The envelopes the batch encryption of `toyItems` produces. -/
def toyBatchOuts : List String :=
  match (encryptList toyExt "MY_SECRET_KEY" toyItems).1 with
  | .ok l => l
  | .error _ => []

/-- The names of the four envelope components, in order. -/
def componentNames : List String := ["salt", "iv", "cipherText", "hmac"]

/-- The amended description of `parseEncryptedData`'s behaviour: it rejects
on the first violated *stage* — missing prefix first, then wrong part count —
and only within the two later stages does it collect offenders: all empty
components are reported together, and (when none is empty) all non-base64
components are reported together. -/
def stagedParse (s : String) : Except CryptoError ParsedPayload :=
  let parts := jsSplitColon (jsSubstringFrom envHeader.data.length s)
  let comps := [parts.getD 0 "", parts.getD 1 "", parts.getD 2 "", parts.getD 3 ""]
  if !(jsStartsWith envHeader s) then
    .error ⟨"CryptoEngine.validateEncryptedComponents",
      "Invalid encrypted format: Missing prefix"⟩
  else if parts.length != EXPECTED_PARTS then
    .error ⟨"CryptoEngine.validateEncryptedComponents",
      "Invalid format. Expected " ++ toString EXPECTED_PARTS ++ " parts, got "
        ++ toString parts.length⟩
  else
    let missing := (componentNames.zip comps).filterMap
      (fun p => if p.2 = "" then some p.1 else none)
    if missing ≠ [] then
      .error ⟨"CryptoEngine.validateEncryptedComponents",
        "Authentication failed: Missing components - " ++ String.intercalate ", " missing⟩
    else
      let invalid := (componentNames.zip comps).filterMap
        (fun p => if !(isValidBase64 p.2) then some p.1 else none)
      if invalid ≠ [] then
        .error ⟨"CryptoEngine.validateEncryptedComponents",
          "Invalid format for components: " ++ String.intercalate ", " invalid⟩
      else
        .ok ⟨comps.getD 0 "", comps.getD 1 "", comps.getD 2 "", comps.getD 3 ""⟩

/-! ### Helper lemmas -/

theorem splitOnChar_ne_nil (sep : Char) (l : List Char) : splitOnChar sep l ≠ [] := by
  cases l with
  | nil => simp [splitOnChar]
  | cons c rest =>
    simp only [splitOnChar]
    cases h : splitOnChar sep rest with
    | nil => simp
    | cons h t =>
      by_cases hc : c = sep <;> simp [hc]

theorem splitOnChar_no_sep (sep : Char) (l : List Char) (h : ∀ c ∈ l, c ≠ sep) :
    splitOnChar sep l = [l] := by
  induction l with
  | nil => rfl
  | cons c rest ih =>
    have hrest : ∀ x ∈ rest, x ≠ sep := fun x hx => h x (List.mem_cons_of_mem _ hx)
    have hc : c ≠ sep := h c (List.mem_cons_self _ _)
    simp only [splitOnChar]
    rw [ih hrest]
    simp [hc]

theorem splitOnChar_append (sep : Char) (a r : List Char) (h : ∀ c ∈ a, c ≠ sep) :
    splitOnChar sep (a ++ sep :: r) = a :: splitOnChar sep r := by
  induction a with
  | nil =>
    simp only [List.nil_append, splitOnChar]
    cases hr : splitOnChar sep r with
    | nil => exact absurd hr (splitOnChar_ne_nil sep r)
    | cons x t => simp
  | cons c rest ih =>
    have hrest : ∀ x ∈ rest, x ≠ sep := fun x hx => h x (List.mem_cons_of_mem _ hx)
    have hc : c ≠ sep := h c (List.mem_cons_self _ _)
    simp only [List.cons_append, splitOnChar]
    have ih2 : splitOnChar sep (rest.append (sep :: r)) = rest :: splitOnChar sep r :=
      ih hrest
    rw [ih2]
    simp [hc]

theorem isValidBase64_ne_empty {s : String} (h : isValidBase64 s = true) : s ≠ "" := by
  intro he
  rw [he] at h
  simp [isValidBase64] at h

theorem mem_takeWhile_eqChar {l : List Char} {c : Char}
    (h : c ∈ l.takeWhile (fun d => decide (d = '='))) : c = '=' := by
  induction l with
  | nil => simp [List.takeWhile] at h
  | cons d t ih =>
    by_cases hd : d = '='
    · rw [List.takeWhile_cons] at h
      simp only [hd, decide_True] at h
      rcases List.mem_cons.mp h with rfl | hmem
      · rfl
      · exact ih hmem
    · rw [List.takeWhile_cons] at h
      simp [hd] at h

theorem isValidBase64_chars {s : String} (h : isValidBase64 s = true) :
    ∀ c ∈ s.data, isBase64Char c = true ∨ c = '=' := by
  intro c hc
  have hbody : base64BodyOk s = true := by
    by_contra hb
    simp only [Bool.not_eq_true] at hb
    simp [isValidBase64, hb] at h
  simp only [base64BodyOk, Bool.and_eq_true, List.all_eq_true] at hbody
  obtain ⟨-, hall⟩ := hbody
  have hc' : c ∈ s.data.reverse := List.mem_reverse.mpr hc
  rw [← List.takeWhile_append_dropWhile (p := fun d => decide (d = '='))
    (l := s.data.reverse)] at hc'
  rcases List.mem_append.mp hc' with htk | hdp
  · right
    exact mem_takeWhile_eqChar htk
  · left
    exact hall c hdp

theorem isValidBase64_no_colon {s : String} (h : isValidBase64 s = true) :
    ∀ c ∈ s.data, c ≠ ':' := by
  intro c hc he
  rcases isValidBase64_chars h c hc with hb | hb
  · rw [he] at hb
    simp [isBase64Char] at hb
  · rw [he] at hb
    cases hb

theorem ctLoop_self (l : List Char) : ctLoop l l = (0, l.length) := by
  induction l with
  | nil => rfl
  | cons c rest ih => simp [ctLoop, ih]

theorem constantTimeCompare_self (s : String) : constantTimeCompare s s = true := by
  simp [constantTimeCompare, ctLoop_self]

theorem natLorEqZero (m n : Nat) : m ||| n = 0 ↔ m = 0 ∧ n = 0 := by
  constructor
  · intro h
    constructor <;>
      · apply Nat.eq_of_testBit_eq
        intro i
        have hb : (m ||| n).testBit i = false := by rw [h]; exact Nat.zero_testBit i
        rw [Nat.testBit_lor] at hb
        simp only [Bool.or_eq_false_iff] at hb
        simp [hb.1, hb.2]
  · rintro ⟨rfl, rfl⟩
    rfl

theorem ctLoop_fst_eq_zero {xs ys : List Char} (hlen : xs.length = ys.length) :
    ((ctLoop xs ys).1 = 0) ↔ xs = ys := by
  induction xs generalizing ys with
  | nil =>
    cases ys with
    | nil => simp [ctLoop]
    | cons y ys => simp at hlen
  | cons x xs ih =>
    cases ys with
    | nil => simp at hlen
    | cons y ys =>
      simp only [List.length_cons, Nat.add_right_cancel_iff] at hlen
      simp only [ctLoop]
      rw [natLorEqZero, Nat.xor_eq_zero, ih hlen]
      constructor
      · rintro ⟨h1, h2⟩
        have hxy : x = y := Char.eq_of_val_eq (UInt32.ext h2)
        rw [h1, hxy]
      · intro h
        injection h with h1 h2
        subst h1
        subst h2
        exact ⟨rfl, rfl⟩

theorem constantTimeCompare_eq_iff (a b : String) :
    constantTimeCompare a b = true ↔ a = b := by
  unfold constantTimeCompare
  by_cases hlen : a.data.length = b.data.length
  · have hb : (a.data.length != b.data.length) = false := by simp [hlen]
    rw [hb]
    simp only [Bool.false_eq_true, if_false, beq_iff_eq]
    rw [ctLoop_fst_eq_zero hlen]
    constructor
    · intro h
      cases a
      cases b
      simp_all
    · intro h
      rw [h]
  · have hne : a ≠ b := fun he => hlen (by rw [he])
    have hb : (a.data.length != b.data.length) = true := by
      simp only [bne_iff_ne, ne_eq]
      exact hlen
    rw [hb]
    constructor
    · intro hfalse
      simp at hfalse
    · intro he
      exact absurd he hne

theorem ctLoop_snd (xs ys : List Char) :
    (ctLoop xs ys).2 = min xs.length ys.length := by
  induction xs generalizing ys with
  | nil =>
    cases ys <;> simp [ctLoop]
  | cons x xs ih =>
    cases ys with
    | nil => simp [ctLoop]
    | cons y ys =>
      simp only [ctLoop, ih, List.length_cons]
      omega

theorem missingList_eq (p0 p1 p2 p3 : String) :
    (if p0 = "" then ["salt"] else []) ++ (if p1 = "" then ["iv"] else []) ++
      (if p2 = "" then ["cipherText"] else []) ++ (if p3 = "" then ["hmac"] else []) =
    (componentNames.zip [p0, p1, p2, p3]).filterMap
      (fun p => if p.2 = "" then some p.1 else none) := by
  by_cases h0 : p0 = "" <;> by_cases h1 : p1 = "" <;> by_cases h2 : p2 = "" <;>
    by_cases h3 : p3 = "" <;> simp [componentNames, h0, h1, h2, h3]

theorem invalidList_eq (p0 p1 p2 p3 : String) :
    (if !(isValidBase64 p0) then ["salt"] else []) ++
      (if !(isValidBase64 p1) then ["iv"] else []) ++
      (if !(isValidBase64 p2) then ["cipherText"] else []) ++
      (if !(isValidBase64 p3) then ["hmac"] else []) =
    (componentNames.zip [p0, p1, p2, p3]).filterMap
      (fun p => if !(isValidBase64 p.2) then some p.1 else none) := by
  by_cases h0 : isValidBase64 p0 <;> by_cases h1 : isValidBase64 p1 <;>
    by_cases h2 : isValidBase64 p2 <;> by_cases h3 : isValidBase64 p3 <;>
    simp [componentNames, h0, h1, h2, h3]

theorem mapStage (b1 b2 : Bool) (m inv : List String) (e1 e2 e3 e4 : CryptoError)
    (pay : ParsedPayload) :
    Except.map (fun _ => pay)
      (if b1 then Except.error e1
       else if b2 then Except.error e2
       else if m.length > 0 then Except.error e3
       else if inv.length > 0 then Except.error e4
       else Except.ok ()) =
    (if b1 then Except.error e1
     else if b2 then Except.error e2
     else if m ≠ [] then Except.error e3
     else if inv ≠ [] then Except.error e4
     else Except.ok pay) := by
  cases b1 <;> cases b2 <;> cases m <;> cases inv <;> simp [Except.map]

theorem parse_eq_staged (s : String) : parseEncryptedData s = stagedParse s := by
  simp only [parseEncryptedData, stagedParse, validateEncryptedComponents]
  rw [missingList_eq, invalidList_eq]
  rw [mapStage]
  rfl

theorem jsStartsWith_ne_empty {s : String} (h : jsStartsWith envHeader s = true) :
    s ≠ "" := by
  intro he
  rw [he] at h
  exact absurd h (by decide)

theorem list_eq_four {α : Type} {l : List α} (h : l.length = 4) :
    ∃ a b c d, l = [a, b, c, d] := by
  cases l with
  | nil => exact absurd h (by simp)
  | cons a l1 =>
    cases l1 with
    | nil => exact absurd h (by simp)
    | cons b l2 =>
      cases l2 with
      | nil => exact absurd h (by simp)
      | cons c l3 =>
        cases l3 with
        | nil => exact absurd h (by simp)
        | cons d l4 =>
          cases l4 with
          | nil => exact ⟨a, b, c, d, rfl⟩
          | cons e l5 =>
            simp only [List.length_cons] at h
            omega

theorem format_data (salt iv ct hm : String) :
    (formatEncryptedPayload salt iv ct hm).data =
      envHeader.data ++ (salt.data ++ ':' :: (iv.data ++ ':' :: (ct.data ++ ':' :: hm.data))) := by
  have hcolon : (":" : String).data = [':'] := rfl
  have happ : ∀ a b : String, (a ++ b).data = a.data ++ b.data := fun a b => rfl
  simp only [formatEncryptedPayload, happ, hcolon, List.append_assoc, List.singleton_append,
    List.cons_append, List.nil_append]

theorem parts_of_format (salt iv ct hm : String)
    (hs : ∀ c ∈ salt.data, c ≠ ':') (hi : ∀ c ∈ iv.data, c ≠ ':')
    (hc : ∀ c ∈ ct.data, c ≠ ':') (hh : ∀ c ∈ hm.data, c ≠ ':') :
    jsSplitColon (jsSubstringFrom envHeader.data.length (formatEncryptedPayload salt iv ct hm)) =
      [salt, iv, ct, hm] := by
  have hmkd : ∀ l : List Char, (String.mk l).data = l := fun l => rfl
  have hmk : ∀ s : String, String.mk s.data = s := fun s => rfl
  unfold jsSubstringFrom jsSplitColon
  rw [format_data, hmkd, List.drop_left]
  rw [splitOnChar_append ':' salt.data _ hs]
  rw [splitOnChar_append ':' iv.data _ hi]
  rw [splitOnChar_append ':' ct.data _ hc]
  rw [splitOnChar_no_sep ':' hm.data hh]
  simp only [List.map_cons, List.map_nil, hmk]

theorem jsStartsWith_format (salt iv ct hm : String) :
    jsStartsWith envHeader (formatEncryptedPayload salt iv ct hm) = true := by
  unfold jsStartsWith
  rw [format_data, List.isPrefixOf_iff_prefix]
  exact List.prefix_append _ _

theorem parse_format (salt iv ct hm : String)
    (hs : isValidBase64 salt = true) (hi : isValidBase64 iv = true)
    (hc : isValidBase64 ct = true) (hh : isValidBase64 hm = true) :
    parseEncryptedData (formatEncryptedPayload salt iv ct hm) = .ok ⟨salt, iv, ct, hm⟩ := by
  have hparts := parts_of_format salt iv ct hm
    (isValidBase64_no_colon hs) (isValidBase64_no_colon hi)
    (isValidBase64_no_colon hc) (isValidBase64_no_colon hh)
  simp only [parseEncryptedData, hparts]
  simp only [validateEncryptedComponents, jsStartsWith_format, Bool.not_true,
    Bool.false_eq_true, if_false]
  have hse := isValidBase64_ne_empty hs
  have hie := isValidBase64_ne_empty hi
  have hce := isValidBase64_ne_empty hc
  have hhe := isValidBase64_ne_empty hh
  simp [hs, hi, hc, hh, hse, hie, hce, hhe, EXPECTED_PARTS, Except.map]

theorem staged_tail_eq (q0 q1 q2 q3 : String) :
    List.all [q0, q1, q2, q3] (fun part => !(part = "") && isValidBase64 part) =
    isOkE
      (if ((componentNames.zip [q0, q1, q2, q3]).filterMap
            (fun p => if p.2 = "" then some p.1 else none)) ≠ [] then
        Except.error (⟨"CryptoEngine.validateEncryptedComponents",
          "Authentication failed: Missing components - " ++ String.intercalate ", "
            ((componentNames.zip [q0, q1, q2, q3]).filterMap
              (fun p => if p.2 = "" then some p.1 else none))⟩ : CryptoError)
      else if ((componentNames.zip [q0, q1, q2, q3]).filterMap
            (fun p => if !(isValidBase64 p.2) then some p.1 else none)) ≠ [] then
        Except.error ⟨"CryptoEngine.validateEncryptedComponents",
          "Invalid format for components: " ++ String.intercalate ", "
            ((componentNames.zip [q0, q1, q2, q3]).filterMap
              (fun p => if !(isValidBase64 p.2) then some p.1 else none))⟩
      else Except.ok (⟨q0, q1, q2, q3⟩ : ParsedPayload)) := by
  by_cases h0 : q0 = "" <;> by_cases h1 : q1 = "" <;> by_cases h2 : q2 = "" <;>
    by_cases h3 : q3 = "" <;> by_cases v0 : isValidBase64 q0 <;>
    by_cases v1 : isValidBase64 q1 <;> by_cases v2 : isValidBase64 q2 <;>
    by_cases v3 : isValidBase64 q3 <;>
    simp [h0, h1, h2, h3, v0, v1, v2, v3, componentNames, isOkE]

theorem isEncrypted_eq_parse (s : String) :
    isEncrypted s = isOkE (parseEncryptedData s) := by
  rw [parse_eq_staged]
  by_cases hpre : jsStartsWith envHeader s
  · have hs : s ≠ "" := jsStartsWith_ne_empty hpre
    have hnp : (!jsStartsWith envHeader s) = false := by simp [hpre]
    simp only [isEncrypted, stagedParse, hnp, Bool.false_eq_true, if_false]
    rw [if_neg hs]
    by_cases hcnt :
        (jsSplitColon (jsSubstringFrom envHeader.data.length s)).length = EXPECTED_PARTS
    · obtain ⟨q0, q1, q2, q3, hq⟩ := list_eq_four (l := jsSplitColon
        (jsSubstringFrom envHeader.data.length s)) (by rw [hcnt]; rfl)
      rw [hq]
      rw [show ((([q0, q1, q2, q3] : List String).length != EXPECTED_PARTS)) = false from rfl]
      simp only [Bool.false_eq_true, if_false]
      rw [show (decide (([q0, q1, q2, q3] : List String).length = EXPECTED_PARTS)) = true
        from rfl]
      rw [Bool.true_and]
      simp only [List.getD_cons_zero, List.getD_cons_succ]
      exact staged_tail_eq q0 q1 q2 q3
    · have hb : ((jsSplitColon (jsSubstringFrom envHeader.data.length s)).length
          != EXPECTED_PARTS) = true := by
        rw [bne_iff_ne]
        exact hcnt
      rw [hb]
      have hd : (decide ((jsSplitColon (jsSubstringFrom envHeader.data.length s)).length
          = EXPECTED_PARTS)) = false := by
        rw [decide_eq_false_iff_not]
        exact hcnt
      rw [hd, Bool.false_and]
      simp [isOkE]
  · have hnp : (!jsStartsWith envHeader s) = true := by simp [hpre]
    simp only [isEncrypted, stagedParse, hnp, if_true]
    by_cases hs : s = ""
    · rw [if_pos hs]
      simp [isOkE]
    · rw [if_neg hs]
      simp [hpre, isOkE]

theorem format_ne_empty (salt iv ct hm : String) :
    formatEncryptedPayload salt iv ct hm ≠ "" :=
  jsStartsWith_ne_empty (jsStartsWith_format salt iv ct hm)

theorem encrypt_ok (ext : Externals) (saltBytes ivBytes : List Nat)
    (value keyVar pass : String) (dk : List Nat)
    (hres : ext.resolveSecret keyVar = some pass)
    (hpne : pass ≠ "") (hlen : ¬ pass.data.length < 16) (hv : value ≠ "")
    (hsaltv : isValidBase64 (ext.b64encode saltBytes) = true)
    (hargon : ext.argon2Hash pass (ext.b64decode (ext.b64encode saltBytes)) = some dk) :
    encrypt ext saltBytes ivBytes value keyVar =
      (.ok (createEncryptedPayload ext value (ext.b64encode saltBytes) ivBytes
          ⟨dk.take SECRET_KEY_BYTES, dk.drop SECRET_KEY_BYTES⟩),
       [.resolveSecretKey, .deriveKeys, .aeadEncrypt, .computeMac]) := by
  have hsne : ext.b64encode saltBytes ≠ "" := isValidBase64_ne_empty hsaltv
  have hlen2 : ¬ pass.length < 16 := hlen
  simp [encrypt, getSecretKeyFromEnvironment, validateSecretKey, validateInputs,
    deriveKeysWithArgon2, validateBase64String, hres, hargon, hpne, hlen2, hv, hsne, hsaltv]

theorem decrypt_format_ok (ext : Externals) (keyVar pass : String)
    (salt ivB64 ct : String) (dk ivBytes ctBytes buf : List Nat) (pt : String)
    (hres : ext.resolveSecret keyVar = some pass)
    (hpne : pass ≠ "") (hlen : ¬ pass.data.length < 16)
    (hsv : isValidBase64 salt = true) (hiv : isValidBase64 ivB64 = true)
    (hcv : isValidBase64 ct = true)
    (hhv : isValidBase64
      (computeHMAC ext (dk.drop SECRET_KEY_BYTES) (prepareHMACData ext salt ivB64 ct)) = true)
    (hargon : ext.argon2Hash pass (ext.b64decode salt) = some dk)
    (hivdec : ext.b64decode ivB64 = ivBytes) (hctdec : ext.b64decode ct = ctBytes)
    (haes : ext.aesGcmDecrypt (dk.take SECRET_KEY_BYTES) ivBytes ctBytes = some buf)
    (hutf : ext.utf8Decode buf = pt) :
    (decrypt ext (formatEncryptedPayload salt ivB64 ct
        (computeHMAC ext (dk.drop SECRET_KEY_BYTES) (prepareHMACData ext salt ivB64 ct)))
      keyVar).1 = .ok pt := by
  have henvne := format_ne_empty salt ivB64 ct
    (computeHMAC ext (dk.drop SECRET_KEY_BYTES) (prepareHMACData ext salt ivB64 ct))
  have hsne : salt ≠ "" := isValidBase64_ne_empty hsv
  have hparse := parse_format salt ivB64 ct
    (computeHMAC ext (dk.drop SECRET_KEY_BYTES) (prepareHMACData ext salt ivB64 ct))
    hsv hiv hcv hhv
  have hlen2 : ¬ pass.length < 16 := hlen
  simp [decrypt, getSecretKeyFromEnvironment, validateSecretKey, validateInputs,
    deriveKeysWithArgon2, validateBase64String, verifyHMAC, performDecryption,
    hres, hpne, hlen2, henvne, hparse, hsne, hsv, hargon,
    constantTimeCompare_self, hivdec, hctdec, haes, hutf]

theorem validChars_all {s : String} (h : isValidBase64 s = true) :
    s.data.all (fun c => isBase64Char c || c = '=') = true := by
  rw [List.all_eq_true]
  intro c hc
  rcases isValidBase64_chars h c hc with hb | hb
  · simp [hb]
  · simp [hb]

theorem matchesClaimRegex_format (salt iv ct hm : String)
    (hs : isValidBase64 salt = true) (hi : isValidBase64 iv = true)
    (hc : isValidBase64 ct = true) (hh : isValidBase64 hm = true) :
    matchesClaimRegex (formatEncryptedPayload salt iv ct hm) = true := by
  unfold matchesClaimRegex
  rw [jsStartsWith_format]
  rw [parts_of_format salt iv ct hm (isValidBase64_no_colon hs) (isValidBase64_no_colon hi)
    (isValidBase64_no_colon hc) (isValidBase64_no_colon hh)]
  simp [isValidBase64_ne_empty hs, isValidBase64_ne_empty hi,
    isValidBase64_ne_empty hc, isValidBase64_ne_empty hh,
    validChars_all hs, validChars_all hi, validChars_all hc, validChars_all hh]

/-! ### Claim theorems -/

/-- C9: for every string `s`, the well-formedness predicate `isEncrypted`
returns `true` exactly when `parseEncryptedData` succeeds: the two
independently implemented format checks accept precisely the same strings. -/
theorem c9_isEncrypted_iff_parse_ok (s : String) :
    isEncrypted s = isOkE (parseEncryptedData s) :=
  isEncrypted_eq_parse s

/-- C3 counterexample: on the input `"AAAA"` (no `ENC2:` prefix, and a wrong
part count as well), `parseEncryptedData` reports only the missing prefix:
the part-count violation that is also present is not mentioned, so parsing
does not collect every violation into one diagnostic. -/
theorem c3_counterexample :
    parseEncryptedData "AAAA" = .error ⟨"CryptoEngine.validateEncryptedComponents",
      "Invalid encrypted format: Missing prefix"⟩ ∧
    (jsSplitColon (jsSubstringFrom envHeader.data.length "AAAA")).length ≠ EXPECTED_PARTS := by
  constructor
  · decide
  · decide

/-- C3 (amended): `parseEncryptedData` rejects on the first violated stage —
missing prefix first, then wrong part count, each reported alone — and only
collects offenders within a stage: all empty components are named together in
one error, and (when none is empty) all non-base64 components are named
together in one error. -/
theorem c3_staged_collection (s : String) : parseEncryptedData s = stagedParse s :=
  parse_eq_staged s

/-- C8: `constantTimeCompare` returns `true` exactly on equal strings, the
number of loop iterations it executes depends only on the lengths of its
inputs (never on where a mismatch occurs), and `verifyHMAC` recomputes the
tag and fails — with one fixed message revealing nothing about the position
of the difference — exactly when the recomputed tag differs from the
received one. -/
theorem c8_constant_time_verify :
    (∀ a b : String, constantTimeCompare a b = true ↔ a = b) ∧
    (∀ a b a2 b2 : String, a.data.length = a2.data.length →
      b.data.length = b2.data.length →
      constantTimeCompareSteps a b = constantTimeCompareSteps a2 b2) ∧
    (∀ (ext : Externals) (salt iv ct recv : String) (key : List Nat),
      verifyHMAC ext salt iv ct recv key =
        if computeHMAC ext key (prepareHMACData ext salt iv ct) = recv then .ok ()
        else .error ⟨"CryptoEngine.verifyHMAC",
          "Authentication failed: HMAC mismatch - Invalid key or tampered data"⟩) := by
  refine ⟨constantTimeCompare_eq_iff, ?_, ?_⟩
  · intro a b a2 b2 h1 h2
    unfold constantTimeCompareSteps
    rw [ctLoop_snd, ctLoop_snd, h1, h2]
  · intro ext salt iv ct recv key
    simp only [verifyHMAC]
    by_cases h : computeHMAC ext key (prepareHMACData ext salt iv ct) = recv
    · rw [if_pos h, h]
      simp [constantTimeCompare_self]
    · rw [if_neg h]
      have hc : constantTimeCompare
          (computeHMAC ext key (prepareHMACData ext salt iv ct)) recv = false := by
        rw [← Bool.not_eq_true]
        intro hcc
        exact h ((constantTimeCompare_eq_iff _ _).mp hcc)
      rw [hc]
      rfl

/-- C8 witness: concrete instances — the iteration count agrees on two pairs
of same-length strings, and `verifyHMAC` rejects a concrete wrong tag with
the fixed message. -/
theorem c8_witness :
    constantTimeCompareSteps "abcd" "efgh" = constantTimeCompareSteps "wxyz" "mnop" ∧
    verifyHMAC toyExt "QUFB" "QUFB" "QUFB" "bogus" [1, 2, 3] =
      .error ⟨"CryptoEngine.verifyHMAC",
        "Authentication failed: HMAC mismatch - Invalid key or tampered data"⟩ := by
  constructor
  · exact c8_constant_time_verify.2.1 "abcd" "efgh" "wxyz" "mnop" (by decide) (by decide)
  · rw [c8_constant_time_verify.2.2 toyExt "QUFB" "QUFB" "QUFB" "bogus" [1, 2, 3]]
    decide

/-- C10: `decryptMultiple` on the empty array returns the empty list with an
empty trace — no secret-key resolution, key derivation, or decryption runs —
and on a non-array argument it fails with the `decryptMultiple` error
instead of returning a value. -/
theorem c10_decryptMultiple_empty (ext : Externals) (secretKeyVariable : String) :
    decryptMultiple ext (JsArg.arr []) secretKeyVariable = (.ok [], []) ∧
    decryptMultiple ext JsArg.notArray secretKeyVariable =
      (.error ⟨"decryptMultiple", "encryptedValues must be an array"⟩, []) :=
  ⟨rfl, rfl⟩

/-- C1: round-trip.  For any plaintext and any stored passphrase of length
≥ 16, decrypting the envelope `encrypt` produced (with the same
`secretKeyVariable`, resolving to the same passphrase) returns the original
plaintext.  The hypotheses are the contracts of the external primitives at
the values the pipeline feeds them: base64 validity and decode-of-encode on
the generated salt/IV/ciphertext/tag, Argon2 returning a digest, the AES-GCM
decrypt-of-encrypt identity, and the UTF-8 round-trip on the plaintext. -/
theorem c1_roundtrip (ext : Externals) (saltBytes ivBytes : List Nat)
    (pt keyVar pass : String) (dk : List Nat)
    (hres : ext.resolveSecret keyVar = some pass)
    (hpne : pass ≠ "") (hlen : ¬ pass.data.length < 16) (hpt : pt ≠ "")
    (hsaltv : isValidBase64 (ext.b64encode saltBytes) = true)
    (hargon : ext.argon2Hash pass (ext.b64decode (ext.b64encode saltBytes)) = some dk)
    (hiv : isValidBase64 (ext.b64encode ivBytes) = true)
    (hct : isValidBase64 (ext.b64encode (ext.aesGcmEncrypt (dk.take SECRET_KEY_BYTES)
      ivBytes (ext.utf8Encode pt))) = true)
    (hhm : isValidBase64 (computeHMAC ext (dk.drop SECRET_KEY_BYTES)
      (prepareHMACData ext (ext.b64encode saltBytes) (ext.b64encode ivBytes)
        (ext.b64encode (ext.aesGcmEncrypt (dk.take SECRET_KEY_BYTES) ivBytes
          (ext.utf8Encode pt))))) = true)
    (hivdec : ext.b64decode (ext.b64encode ivBytes) = ivBytes)
    (hctdec : ext.b64decode (ext.b64encode (ext.aesGcmEncrypt (dk.take SECRET_KEY_BYTES)
        ivBytes (ext.utf8Encode pt))) =
      ext.aesGcmEncrypt (dk.take SECRET_KEY_BYTES) ivBytes (ext.utf8Encode pt))
    (haes : ext.aesGcmDecrypt (dk.take SECRET_KEY_BYTES) ivBytes
        (ext.aesGcmEncrypt (dk.take SECRET_KEY_BYTES) ivBytes (ext.utf8Encode pt)) =
      some (ext.utf8Encode pt))
    (hutf : ext.utf8Decode (ext.utf8Encode pt) = pt) :
    ((encrypt ext saltBytes ivBytes pt keyVar).1.bind
      (fun env => (decrypt ext env keyVar).1)) = Except.ok pt := by
  rw [encrypt_ok ext saltBytes ivBytes pt keyVar pass dk hres hpne hlen hpt hsaltv hargon]
  exact decrypt_format_ok ext keyVar pass (ext.b64encode saltBytes) (ext.b64encode ivBytes)
    (ext.b64encode (ext.aesGcmEncrypt (dk.take SECRET_KEY_BYTES) ivBytes (ext.utf8Encode pt)))
    dk ivBytes (ext.aesGcmEncrypt (dk.take SECRET_KEY_BYTES) ivBytes (ext.utf8Encode pt))
    (ext.utf8Encode pt) pt hres hpne hlen hsaltv hiv hct hhm hargon hivdec hctdec haes hutf

/-- C1 witness: the round-trip evaluated on the concrete externals, with
plaintext `"ab"` and the stored 16-character passphrase. -/
theorem c1_witness :
    ((encrypt toyExt toySaltBytes toyIvBytes "ab" "MY_SECRET_KEY").1.bind
      (fun env => (decrypt toyExt env "MY_SECRET_KEY").1)) = Except.ok "ab" :=
  c1_roundtrip toyExt toySaltBytes toyIvBytes "ab" "MY_SECRET_KEY" "0123456789abcdef"
    (List.range 64) rfl (by decide) (by decide) (by decide) (by decide) rfl
    (by decide) (by decide) (by decide) (by decide) (by decide) (by decide) (by decide)

/-- C7: every envelope `encrypt` produces matches
`^ENC2:[A-Za-z0-9+/=]+:[A-Za-z0-9+/=]+:[A-Za-z0-9+/=]+:[A-Za-z0-9+/=]+$` —
the fixed `ENC2:` header followed by exactly 4 colon-separated non-empty
base64 parts.  The hypotheses are the base64-validity contracts of the
external encoder at the four encoded components. -/
theorem c7_envelope_format (ext : Externals) (saltBytes ivBytes : List Nat)
    (value keyVar pass : String) (dk : List Nat)
    (hres : ext.resolveSecret keyVar = some pass)
    (hpne : pass ≠ "") (hlen : ¬ pass.data.length < 16) (hv : value ≠ "")
    (hsaltv : isValidBase64 (ext.b64encode saltBytes) = true)
    (hargon : ext.argon2Hash pass (ext.b64decode (ext.b64encode saltBytes)) = some dk)
    (hiv : isValidBase64 (ext.b64encode ivBytes) = true)
    (hct : isValidBase64 (ext.b64encode (ext.aesGcmEncrypt (dk.take SECRET_KEY_BYTES)
      ivBytes (ext.utf8Encode value))) = true)
    (hhm : isValidBase64 (computeHMAC ext (dk.drop SECRET_KEY_BYTES)
      (prepareHMACData ext (ext.b64encode saltBytes) (ext.b64encode ivBytes)
        (ext.b64encode (ext.aesGcmEncrypt (dk.take SECRET_KEY_BYTES) ivBytes
          (ext.utf8Encode value))))) = true) :
    ∀ env, (encrypt ext saltBytes ivBytes value keyVar).1 = .ok env →
      matchesClaimRegex env = true := by
  intro env henv
  rw [encrypt_ok ext saltBytes ivBytes value keyVar pass dk hres hpne hlen hv hsaltv hargon]
    at henv
  have henv2 : createEncryptedPayload ext value (ext.b64encode saltBytes) ivBytes
      ⟨dk.take SECRET_KEY_BYTES, dk.drop SECRET_KEY_BYTES⟩ = env := by
    injection henv
  rw [← henv2]
  exact matchesClaimRegex_format _ _ _ _ hsaltv hiv hct hhm

/-- C7 witness: the concrete envelope produced on the concrete externals
matches the claim's regular expression. -/
theorem c7_witness : matchesClaimRegex toyEnvelope = true :=
  c7_envelope_format toyExt toySaltBytes toyIvBytes "ab" "MY_SECRET_KEY"
    "0123456789abcdef" (List.range 64) rfl (by decide) (by decide) (by decide)
    (by decide) rfl (by decide) (by decide) (by decide) toyEnvelope (by decide)

/-- C2: in `decrypt`, the structural parse runs before any key derivation —
if parsing fails, neither key derivation nor AEAD decryption is ever
invoked — and the AEAD decryptor is only ever invoked after the secret key
resolved, the envelope parsed, the keys derived, and the HMAC verified
successfully (unauthenticated ciphertext is never handed to the decryptor). -/
theorem c2_decrypt_order (ext : Externals) (env keyVar : String) :
    (isOkE (parseEncryptedData env) = false →
      CryptoEvent.deriveKeys ∉ (decrypt ext env keyVar).2 ∧
      CryptoEvent.aeadDecrypt ∉ (decrypt ext env keyVar).2) ∧
    (CryptoEvent.aeadDecrypt ∈ (decrypt ext env keyVar).2 →
      ∃ pass p keys, getSecretKeyFromEnvironment ext keyVar = .ok pass ∧
        parseEncryptedData env = .ok p ∧
        deriveKeysWithArgon2 ext pass p.salt = .ok keys ∧
        verifyHMAC ext p.salt p.iv p.cipherText p.receivedHmac keys.hmacKey = .ok ()) := by
  constructor
  · intro hperr
    cases hres : getSecretKeyFromEnvironment ext keyVar with
    | error e => simp [decrypt, hres]
    | ok pass =>
      cases hvk : validateSecretKey pass with
      | error e => simp [decrypt, hres, hvk]
      | ok u =>
        cases hvi : validateInputs env pass "decrypt" with
        | error e => simp [decrypt, hres, hvk, hvi]
        | ok u2 =>
          cases hp : parseEncryptedData env with
          | error e => simp [decrypt, hres, hvk, hvi, hp]
          | ok p => simp [hp, isOkE] at hperr
  · intro hmem
    cases hres : getSecretKeyFromEnvironment ext keyVar with
    | error e => simp [decrypt, hres] at hmem
    | ok pass =>
      cases hvk : validateSecretKey pass with
      | error e => simp [decrypt, hres, hvk] at hmem
      | ok u =>
        cases hvi : validateInputs env pass "decrypt" with
        | error e => simp [decrypt, hres, hvk, hvi] at hmem
        | ok u2 =>
          cases hp : parseEncryptedData env with
          | error e => simp [decrypt, hres, hvk, hvi, hp] at hmem
          | ok p =>
            cases hd : deriveKeysWithArgon2 ext pass p.salt with
            | error e => simp [decrypt, hres, hvk, hvi, hp, hd] at hmem
            | ok keys =>
              cases hv : verifyHMAC ext p.salt p.iv p.cipherText p.receivedHmac
                  keys.hmacKey with
              | error e => simp [decrypt, hres, hvk, hvi, hp, hd, hv] at hmem
              | ok u3 => exact ⟨pass, p, keys, rfl, rfl, hd, hv⟩

/-- C2 witness: on a malformed input the trace of the concrete pipeline
contains no key-derivation event, and on a concrete well-formed envelope the
AEAD decryption event is preceded by a successful parse, derivation and MAC
verification. -/
theorem c2_witness :
    CryptoEvent.deriveKeys ∉ (decrypt toyExt "AAAA" "MY_SECRET_KEY").2 ∧
    ∃ pass p keys,
      getSecretKeyFromEnvironment toyExt "MY_SECRET_KEY" = .ok pass ∧
      parseEncryptedData toyEnvelope = .ok p ∧
      deriveKeysWithArgon2 toyExt pass p.salt = .ok keys ∧
      verifyHMAC toyExt p.salt p.iv p.cipherText p.receivedHmac keys.hmacKey = .ok () := by
  constructor
  · exact ((c2_decrypt_order toyExt "AAAA" "MY_SECRET_KEY").1 (by decide)).1
  · exact (c2_decrypt_order toyExt toyEnvelope "MY_SECRET_KEY").2 (by decide)

/-- C6 (amended): whenever the stored passphrase is non-empty and shorter
than 16 characters, both `encrypt` and `decrypt` fail with the
`validateSecretKey` validation error before any cryptographic work (the
trace holds only the secret-key resolution, and no envelope is produced);
with a valid passphrase and an empty plaintext, `encrypt` fails with the
`validateInputs` validation error likewise.  (An empty stored passphrase is
instead reported as a missing secret key by the resolver — see the
counterexample.) -/
theorem c6_validation (ext : Externals) (saltBytes ivBytes : List Nat)
    (value env keyVar pass : String)
    (hres : ext.resolveSecret keyVar = some pass) (hpne : pass ≠ "") :
    (pass.data.length < 16 →
      encrypt ext saltBytes ivBytes value keyVar =
        (.error ⟨"CryptoEngine.validateSecretKey",
          "Secret key must be at least 16 characters long"⟩, [.resolveSecretKey]) ∧
      decrypt ext env keyVar =
        (.error ⟨"CryptoEngine.validateSecretKey",
          "Secret key must be at least 16 characters long"⟩, [.resolveSecretKey])) ∧
    (¬ pass.data.length < 16 → value = "" →
      encrypt ext saltBytes ivBytes value keyVar =
        (.error ⟨"CryptoEngine.validateInputs",
          "encrypt: Value must be a non-empty string"⟩, [.resolveSecretKey])) := by
  constructor
  · intro hlt
    have hlt2 : pass.length < 16 := hlt
    constructor <;>
      simp [encrypt, decrypt, getSecretKeyFromEnvironment, validateSecretKey,
        hres, hpne, hlt2]
  · intro hge hv
    have hge2 : ¬ pass.length < 16 := hge
    subst hv
    simp [encrypt, getSecretKeyFromEnvironment, validateSecretKey, validateInputs,
      hres, hpne, hge2]

/-- C6 counterexample: the empty stored passphrase is shorter than 16
characters, yet `encrypt` fails with the resolver's missing-key error, whose
source is neither of the validation sources — so "every passphrase shorter
than 16 characters fails with a ValidationError" does not hold at `""`. -/
theorem c6_counterexample :
    ("" : String).data.length < 16 ∧
    (encrypt toyExtEmptySecret [] [] "v" "KEY").1 =
      .error ⟨"CryptoEngine.getSecretKeyFromEnvironment",
        "Secret key variable 'KEY' not found in environment file"⟩ ∧
    "CryptoEngine.getSecretKeyFromEnvironment" ≠ "CryptoEngine.validateSecretKey" ∧
    "CryptoEngine.getSecretKeyFromEnvironment" ≠ "CryptoEngine.validateInputs" :=
  ⟨by decide, by decide, by decide, by decide⟩

/-- C6 witness: the amended claim evaluated on concrete stores — a
too-short stored passphrase and an empty plaintext each produce the
corresponding validation error with no cryptographic work. -/
theorem c6_witness :
    (encrypt toyExtShort [] [] "v" "KEY").1 = .error ⟨"CryptoEngine.validateSecretKey",
      "Secret key must be at least 16 characters long"⟩ ∧
    (encrypt toyExt [] [] "" "KEY").1 = .error ⟨"CryptoEngine.validateInputs",
      "encrypt: Value must be a non-empty string"⟩ := by
  constructor
  · have h := (c6_validation toyExtShort [] [] "v" "x" "KEY" "shortkey" rfl
      (by decide)).1 (by decide)
    rw [h.1]
  · have h := (c6_validation toyExt [] [] "" "x" "KEY" "0123456789abcdef" rfl
      (by decide)).2 (by decide) rfl
    rw [h]

/-- C4 (amended): `deriveKeysWithArgon2` validates only that the salt is a
non-empty, syntactically valid base64 string — a salt failing that check is
rejected with the `validateBase64String` error — and every valid-base64 salt
is passed to Argon2 regardless of its decoded byte length (there is no
32-byte check), the 64-byte digest being split 32/32 into the key pair. -/
theorem c4_salt_validation (ext : Externals) (secretKey salt : String) :
    (isValidBase64 salt = false →
      ∃ msg, deriveKeysWithArgon2 ext secretKey salt =
        .error ⟨"CryptoEngine.validateBase64String", msg⟩) ∧
    (∀ dk, isValidBase64 salt = true →
      ext.argon2Hash secretKey (ext.b64decode salt) = some dk →
      deriveKeysWithArgon2 ext secretKey salt =
        .ok ⟨dk.take SECRET_KEY_BYTES, dk.drop SECRET_KEY_BYTES⟩) := by
  constructor
  · intro hinv
    by_cases hse : salt = ""
    · exact ⟨"salt must be a non-empty string",
        by simp [deriveKeysWithArgon2, validateBase64String, hse]⟩
    · exact ⟨"salt is not a valid base64 string",
        by simp [deriveKeysWithArgon2, validateBase64String, hse, hinv]⟩
  · intro dk hv hargon
    have hse : salt ≠ "" := isValidBase64_ne_empty hv
    simp [deriveKeysWithArgon2, validateBase64String, hse, hv, hargon]

/-- C4 counterexample: a valid base64 salt whose decoded length is 10 bytes
(not 32) is not rejected — key derivation succeeds on it, instead of failing
with a key-derivation error as the claim requires. -/
theorem c4_counterexample :
    (toyExt.b64decode "QUFBQUFBQUFBQUFBQUFB").length = 10 ∧
    (10 : Nat) ≠ 32 ∧
    isOkE (deriveKeysWithArgon2 toyExt "0123456789abcdef" "QUFBQUFBQUFBQUFBQUFB") = true :=
  ⟨by decide, by decide, by decide⟩

/-- C4 witness: the amended claim at concrete salts — a non-base64 salt is
rejected with the validation error, and a valid one yields the 32/32 split
of the digest. -/
theorem c4_witness :
    (∃ msg, deriveKeysWithArgon2 toyExt "k" "!" =
      .error ⟨"CryptoEngine.validateBase64String", msg⟩) ∧
    deriveKeysWithArgon2 toyExt "k" "QUJD" =
      .ok ⟨(List.range 64).take SECRET_KEY_BYTES, (List.range 64).drop SECRET_KEY_BYTES⟩ := by
  constructor
  · exact (c4_salt_validation toyExt "k" "!").1 (by decide)
  · exact (c4_salt_validation toyExt "k" "QUJD").2 (List.range 64) (by decide) rfl

/-- C5: the batch operations apply the single-item operation to each element
and return the results in input order — whenever the batch succeeds, the
output list pairs up index-by-index with the inputs through the single-item
operation — and if any single item fails, the whole batch fails (no partial
list of successes is returned).  Stated for `encryptList` (each item carrying
its fresh random draws) and for `decryptList`. -/
theorem c5_batch (ext : Externals) (secretKeyVariable : String) :
    (∀ (items : List (String × List Nat × List Nat)) (outs : List String),
      (encryptList ext secretKeyVariable items).1 = .ok outs →
      outs.length = items.length ∧
      ∀ i (hi : i < items.length) (ho : i < outs.length),
        (encrypt ext (items.get ⟨i, hi⟩).2.1 (items.get ⟨i, hi⟩).2.2
          (items.get ⟨i, hi⟩).1 secretKeyVariable).1 = .ok (outs.get ⟨i, ho⟩)) ∧
    (∀ (items : List (String × List Nat × List Nat)) it, it ∈ items →
      isOkE (encrypt ext it.2.1 it.2.2 it.1 secretKeyVariable).1 = false →
      isOkE (encryptList ext secretKeyVariable items).1 = false) ∧
    (∀ (vs : List String) (outs : List String),
      (decryptList ext secretKeyVariable vs).1 = .ok outs →
      outs.length = vs.length ∧
      ∀ i (hi : i < vs.length) (ho : i < outs.length),
        (decrypt ext (vs.get ⟨i, hi⟩) secretKeyVariable).1 = .ok (outs.get ⟨i, ho⟩)) ∧
    (∀ (vs : List String) v, v ∈ vs →
      isOkE (decrypt ext v secretKeyVariable).1 = false →
      isOkE (decryptList ext secretKeyVariable vs).1 = false) := by
  refine ⟨?_, ?_, ?_, ?_⟩
  · intro items
    induction items with
    | nil =>
      intro outs h
      simp only [encryptList] at h
      injection h with h
      subst h
      exact ⟨rfl, fun i hi _ => absurd hi (by simp)⟩
    | cons it rest ih =>
      intro outs h
      simp only [encryptList] at h
      cases he : (encrypt ext it.2.1 it.2.2 it.1 secretKeyVariable).1 with
      | error e => rw [he] at h; exact absurd h (by simp)
      | ok v =>
        rw [he] at h
        cases hrs : (encryptList ext secretKeyVariable rest).1 with
        | error e => rw [hrs] at h; exact absurd h (by simp)
        | ok vs =>
          rw [hrs] at h
          injection h with h
          subst h
          obtain ⟨hl, hidx⟩ := ih vs hrs
          refine ⟨by simp [hl], ?_⟩
          intro i hi ho
          cases i with
          | zero => simpa using he
          | succ n =>
            simp only [List.length_cons] at hi ho
            simpa using hidx n (by omega) (by omega)
  · intro items it hmem hfail
    induction items with
    | nil => cases hmem
    | cons hd2 rest ih =>
      rcases List.mem_cons.mp hmem with rfl | hmem2
      · simp only [encryptList]
        cases he : (encrypt ext it.2.1 it.2.2 it.1 secretKeyVariable).1 with
        | error e => simp [isOkE]
        | ok v => rw [he] at hfail; simp [isOkE] at hfail
      · simp only [encryptList]
        cases he : (encrypt ext hd2.2.1 hd2.2.2 hd2.1 secretKeyVariable).1 with
        | error e => simp [isOkE]
        | ok v =>
          have hrec := ih hmem2
          cases hrs : (encryptList ext secretKeyVariable rest).1 with
          | error e => simp [isOkE]
          | ok vs => rw [hrs] at hrec; simp [isOkE] at hrec
  · intro vs
    induction vs with
    | nil =>
      intro outs h
      simp only [decryptList] at h
      injection h with h
      subst h
      exact ⟨rfl, fun i hi _ => absurd hi (by simp)⟩
    | cons v rest ih =>
      intro outs h
      simp only [decryptList] at h
      cases he : (decrypt ext v secretKeyVariable).1 with
      | error e => rw [he] at h; exact absurd h (by simp)
      | ok pt =>
        rw [he] at h
        cases hrs : (decryptList ext secretKeyVariable rest).1 with
        | error e => rw [hrs] at h; exact absurd h (by simp)
        | ok pts =>
          rw [hrs] at h
          injection h with h
          subst h
          obtain ⟨hl, hidx⟩ := ih pts hrs
          refine ⟨by simp [hl], ?_⟩
          intro i hi ho
          cases i with
          | zero => simpa using he
          | succ n =>
            simp only [List.length_cons] at hi ho
            simpa using hidx n (by omega) (by omega)
  · intro vs v hmem hfail
    induction vs with
    | nil => cases hmem
    | cons hd2 rest ih =>
      rcases List.mem_cons.mp hmem with rfl | hmem2
      · simp only [decryptList]
        cases he : (decrypt ext v secretKeyVariable).1 with
        | error e => simp [isOkE]
        | ok pt => rw [he] at hfail; simp [isOkE] at hfail
      · simp only [decryptList]
        cases he : (decrypt ext hd2 secretKeyVariable).1 with
        | error e => simp [isOkE]
        | ok pt =>
          have hrec := ih hmem2
          cases hrs : (decryptList ext secretKeyVariable rest).1 with
          | error e => simp [isOkE]
          | ok pts => rw [hrs] at hrec; simp [isOkE] at hrec

/-- C5 witness: a concrete two-item batch encrypts to a list of the same
length, and a batch containing one failing item (empty plaintext) fails as a
whole. -/
theorem c5_witness :
    toyBatchOuts.length = toyItems.length ∧
    isOkE (encryptList toyExt "MY_SECRET_KEY"
      [("", (toySaltBytes, toyIvBytes))]).1 = false := by
  constructor
  · exact ((c5_batch toyExt "MY_SECRET_KEY").1 toyItems toyBatchOuts (by decide)).1
  · exact (c5_batch toyExt "MY_SECRET_KEY").2.1 [("", (toySaltBytes, toyIvBytes))]
      ("", (toySaltBytes, toyIvBytes)) (by decide) (by decide)

end CryptoSpec
